import Mathlib

/-!
Verification of the Feedback-Sentiment-Analyzer pipeline.

Shallow embedding of the core orchestration layer:
  * `utils/cluster.py`   — `Cluster`: `_build_clusters`, `package_model_data`,
    `assign_topic` (hierarchy resolution with minimal-span / lowest-parent-id
    tie-break);
  * `utils/sentiment.py` — `Sentiment.get_feedback_sentiment` (empty input
    short-circuits to NEUTRAL, otherwise the classifier pipeline decides);
  * `utils/summary.py`   — `Summary.get_output` (generation call with a
    catch-all substituting the sentinel "Error generating summary");
  * `processor/topic_base.py` — `Subtopic` / `Topic` dataclasses, prompts,
    `get_data_dict` (majority sentiment via Python `max` with `key`);
  * `processor/parser.py` — `Parser`: `_get_sentimental`, `_build_subtopics`,
    `_build_topics`, `_build_topic_names`, `_build_subtopic_info`,
    `get_summary`, `run` (report truncated with `head(25)`).

External model engines (sentence transformer, BERTopic, the sentiment
classifier and the text-generation model) are parameters of the embedding:
the embedding is over their outputs, exactly as the code consumes them.
Python dicts are modelled as insertion-ordered association lists with the
overwrite-in-place / append-at-end update rule; Python exceptions are
modelled with `Except String`.
-/

namespace FSA

/-- Value stored in one field of a report record (string-ish or numeric),
mirroring the `dict[str, str | int]` returned by `Subtopic.get_data_dict`. -/
inductive Val where
  | str : Option String → Val
  | nat : Nat → Val
deriving DecidableEq, Repr

/-- Decidable equality on `Except`, so that concrete pipeline outcomes can
be checked by evaluation. -/
instance {ε α : Type} [DecidableEq ε] [DecidableEq α] : DecidableEq (Except ε α)
  | .error a, .error b =>
      if h : a = b then isTrue (congrArg Except.error h)
      else isFalse (fun hc => h (Except.error.inj hc))
  | .error _, .ok _ => isFalse (fun hc => Except.noConfusion hc)
  | .ok _, .error _ => isFalse (fun hc => Except.noConfusion hc)
  | .ok a, .ok b =>
      if h : a = b then isTrue (congrArg Except.ok h)
      else isFalse (fun hc => h (Except.ok.inj hc))

/-- `Subtopic` dataclass from `processor/topic_base.py`. -/
structure Subtopic where
  name : String
  id : Int
  count : Nat
  tags : List String
  feedback : List String := []
  sentiment : List (String × Nat) := []
  read_name : Option String := none
  summary : Option String := none
deriving DecidableEq, Repr

/-- `Topic` dataclass from `processor/topic_base.py`.  `name` comes from
`Cluster.assign_topic`, which can return Python `None`, hence `Option`. -/
structure Topic where
  name : Option String
  related_sub_topics : List Int := []
  subtopic_data : List String := []
  read_name : String := ""
deriving DecidableEq, Repr

/-- One row of the hierarchical merge table produced by
`topic_model.hierarchical_topics` and consumed by `Cluster.assign_topic`:
the `Topics` list of spanned leaf ids, `Parent_ID` and `Parent_Name`. -/
structure MergeRow where
  topics : List Int
  parent_id : Int
  parent_name : String
deriving DecidableEq, Repr

/-- The slice of the fitted BERTopic model that `Cluster` queries:
`get_topic_info` (the `Topic` and `Name` columns), `get_topic_freq`,
`get_topic` (keyword/weight pairs, of which only the words are kept) and
`get_representative_docs`. -/
structure TopicModel where
  topic_info : List (Int × String)
  topic_freq : Int → Nat
  topic_words : Int → List String
  rep_docs : Int → List String

/-- One record of `Cluster.package_model_data`'s output dictionary. -/
structure ClusterData where
  id : Int
  name : Option String
  count : Nat
  tags : List String
  feedback : List String
deriving DecidableEq, Repr

/-- The `Cluster` object state after `__init__`: `topic_model` is `None`
when the sentence list is empty, and the `hierarchy` attribute is only set
when the sentence list is non-empty (`none` models the missing attribute). -/
structure Cluster where
  sentences : List String
  topic_model : Option TopicModel
  hierarchy : Option (List MergeRow)

/-- `Cluster._build_clusters`: returns `None` on an empty sentence list,
otherwise fits a topic model (the fit itself is the external engine). -/
def build_clusters (engine : List String → TopicModel)
    (sentences : List String) : Option TopicModel :=
  if sentences.isEmpty then none else some (engine sentences)

/-- `Cluster.__init__`: build the topic model, and compute
`hierarchical_topics` only when there are sentences. -/
def mk_cluster (engine : List String → TopicModel)
    (hier_engine : List String → List MergeRow)
    (sentences : List String) : Cluster :=
  { sentences := sentences
    topic_model := build_clusters engine sentences
    hierarchy := if sentences.isEmpty then none else some (hier_engine sentences) }

/-- Python `dict` insertion: overwrite in place if the key exists, else
append at the end (insertion order preserved). -/
def py_dict_insert {α β : Type} [DecidableEq α]
    (d : List (α × β)) (k : α) (v : β) : List (α × β) :=
  if d.any (fun p => p.1 = k) then
    d.map (fun p => if p.1 = k then (k, v) else p)
  else
    d ++ [(k, v)]

/-- Build a Python dict from a list of key/value pairs (`dict(zip(...))`). -/
def py_dict {α β : Type} [DecidableEq α] (pairs : List (α × β)) : List (α × β) :=
  pairs.foldl (fun d p => py_dict_insert d p.1 p.2) []

/-- `str(x)` on an optional string: Python prints `None` for `None`. -/
def py_str : Option String → String
  | none => "None"
  | some s => s

/-- Python `str.strip()`: drop leading and trailing whitespace.  Defined
structurally over the character list so that concrete runs evaluate. -/
def py_strip (s : String) : String :=
  String.mk (((s.data.dropWhile Char.isWhitespace).reverse.dropWhile
    Char.isWhitespace).reverse)

/-- `Sentiment.get_feedback_sentiment`, label part: empty or whitespace-only
feedback short-circuits to the fixed `"NEUTRAL"` label without invoking the
classifier pipeline; otherwise the pipeline's label is returned. -/
def get_feedback_sentiment (pipe : String → String) (feedback : String) : String :=
  if py_strip feedback = "" then "NEUTRAL" else pipe feedback

/-- One `sentiment_counts[sentiment] += 1` step on a `defaultdict(int)`,
keeping Python's insertion order. -/
def tally_incr (counts : List (String × Nat)) (label : String) :
    List (String × Nat) :=
  if counts.any (fun p => p.1 = label) then
    counts.map (fun p => if p.1 = label then (p.1, p.2 + 1) else p)
  else
    counts ++ [(label, 1)]

/-- `Parser._get_sentimental`: tally the classifier label of every sampled
feedback string into an insertion-ordered mapping. -/
def get_sentimental (pipe : String → String) (feedback : List String) :
    List (String × Nat) :=
  feedback.foldl (fun counts fb => tally_incr counts (get_feedback_sentiment pipe fb)) []

/-- `re.sub(r'^[-\d_]+', '', name)` in `Parser._build_subtopics`: drop the
leading run of hyphens, digits and underscores. -/
def clean_name (s : String) : String :=
  String.mk (s.data.dropWhile (fun c => c = '-' || c.isDigit || c = '_'))

/-- Python `max(iterable, key=f)` over the keys of the sentiment dict with
`f = dict.get`: scan left to right keeping the current maximum, replacing it
only on a strictly greater count — so the first-inserted label wins ties.
`none` models the `ValueError` that `max` raises on an empty dict. -/
def py_max_by_count : List (String × Nat) → Option String
  | [] => none
  | p :: rest =>
      some ((rest.foldl (fun best q => if q.2 > best.2 then q else best) p).1)

/-- `Subtopic.get_data_dict`: the four report fields, in source order.
The `max` call raises `ValueError` on an empty sentiment mapping. -/
def Subtopic.get_data_dict (st : Subtopic) : Except String (List (String × Val)) :=
  match py_max_by_count st.sentiment with
  | none => .error "ValueError: max() arg is an empty sequence"
  | some lbl =>
      .ok [ ("Subtopic", .str st.read_name),
            ("Sentiment", .str (some lbl)),
            ("Number of Responses", .nat st.count),
            ("Summary", .str st.summary) ]

/-- `Cluster.assign_topic` on the hierarchical merge table: keep the rows
whose `Topics` list contains `t_id`; if none, return `None`; otherwise keep
the rows of minimal `Topics` length, sort them by `Parent_ID` ascending when
more than one remains, and return the first row's `Parent_Name`. -/
def assign_topic (hierarchy : List MergeRow) (t_id : Int) : Option String :=
  let matching_rows := hierarchy.filter (fun r => t_id ∈ r.topics)
  match matching_rows with
  | [] => none
  | m :: ms =>
      let min_len := (ms.map (fun r => r.topics.length)).foldl min m.topics.length
      let smallest_rows := (m :: ms).filter (fun r => r.topics.length = min_len)
      let chosen_rows :=
        if smallest_rows.length > 1 then
          smallest_rows.mergeSort (fun a b => a.parent_id ≤ b.parent_id)
        else smallest_rows
      chosen_rows.head?.map (fun r => r.parent_name)

/-- `self.hierarchy` attribute access inside `assign_topic`: raises
`AttributeError` when `__init__` never set the attribute (empty corpus). -/
def Cluster.assign_topic (c : Cluster) (t_id : Int) : Except String (Option String) :=
  match c.hierarchy with
  | none => .error "AttributeError: 'Cluster' object has no attribute 'hierarchy'"
  | some h => .ok (FSA.assign_topic h t_id)

/-- `Cluster.package_model_data`: raises `AttributeError` when
`topic_model` is `None`; otherwise builds, per topic id other than `-1`, a
record with the looked-up name, frequency, keyword list and the
representative documents capped at 4 items. -/
def package_model_data (c : Cluster) : Except String (List (Int × ClusterData)) :=
  match c.topic_model with
  | none => .error "AttributeError: 'NoneType' object has no attribute 'get_topic_info'"
  | some tm =>
      let topic_name_lookup := py_dict tm.topic_info
      .ok ((tm.topic_info.map (fun p => p.1)).filterMap (fun topic_id =>
        if topic_id = -1 then none
        else some (topic_id,
          { id := topic_id
            name := (topic_name_lookup.find? (fun p => p.1 = topic_id)).map (fun p => p.2)
            count := tm.topic_freq topic_id
            tags := tm.topic_words topic_id
            feedback := (tm.rep_docs topic_id).take 4 })))

/-- `Parser._build_subtopics` loop body: for each packaged cluster record,
tally the sentiment over its sampled feedback, clean the raw name, and
build the `Subtopic`.  `re.sub` raises `TypeError` if the looked-up name
were `None`; any raise aborts the loop. -/
def subtopics_loop (pipe : String → String) :
    List (Int × ClusterData) → Except String (List (Int × Subtopic))
  | [] => .ok []
  | p :: rest =>
      let sentiment_count := get_sentimental pipe p.2.feedback
      match p.2.name with
      | none => .error "TypeError: expected string or bytes-like object"
      | some nm =>
          match subtopics_loop pipe rest with
          | .error e => .error e
          | .ok sts =>
              .ok ((p.1,
                { name := clean_name nm
                  id := p.2.id
                  count := p.2.count
                  tags := p.2.tags
                  feedback := p.2.feedback
                  sentiment := sentiment_count }) :: sts)

/-- `Parser._build_subtopics` over the packaged cluster records. -/
def build_subtopics (pipe : String → String) (c : Cluster) :
    Except String (List (Int × Subtopic)) :=
  match package_model_data c with
  | .error e => .error e
  | .ok data => subtopics_loop pipe data

/-- `t_dict[name].append(st_id)` on a `defaultdict(list)` keyed by the
resolved parent name, keeping Python's key insertion order. -/
def dd_append (d : List (Option String × List Int)) (k : Option String) (v : Int) :
    List (Option String × List Int) :=
  if d.any (fun p => p.1 = k) then
    d.map (fun p => if p.1 = k then (p.1, p.2 ++ [v]) else p)
  else
    d ++ [(k, [v])]

/-- `Parser._build_topics`: resolve every subtopic id to a parent name (or
`None`) through the hierarchy, group ids by name, and create one `Topic`
per distinct name in first-encounter order. -/
def build_topics (c : Cluster) (subtopics : List (Int × Subtopic)) :
    Except String (List Topic) := do
  let t_dict ← subtopics.foldlM (fun (d : List (Option String × List Int)) p => do
      let name ← c.assign_topic p.1
      pure (dd_append d name p.1)) []
  pure (t_dict.map (fun p => { name := p.1, related_sub_topics := p.2 }))

/-- `Subtopic.get_str_data`: the f-string fed into topic name prompts,
with the `label: count` sentiment pairs. -/
def Subtopic.get_str_data (st : Subtopic) : String :=
  let smt := st.sentiment.map (fun p => p.1 ++ ": " ++ toString p.2)
  "\n        id: " ++ toString st.id ++ "\n\n,\n        name: " ++ st.name ++
  "\n\n,\n        tags: " ++ String.intercalate ", " st.tags ++
  "\n\n,\n        feedback: " ++ String.intercalate ", " st.feedback ++
  "\n\n,\n        sentiment: " ++
  (if st.sentiment.isEmpty then "" else String.intercalate ", " smt) ++
  "\n        "

/-- `Subtopic.name_prompt`: the stripped prompt requesting a 2–5 word Title
Case name for the subtopic. -/
def Subtopic.name_prompt (st : Subtopic) : String :=
  let prompt :=
    "\n        You are an analyst helping to label clusters of user feedback with\n" ++
    "        concise and descriptive names. We are labelling subtopics, which are\n" ++
    "        defined as a smaller, more specific topic that is part of a larger,\n" ++
    "        broader subject.\n\n" ++
    "        The subtopic has the following short description:\n" ++
    "        \"" ++ st.name ++ "\"\n\n" ++
    "        The associated keywords for the subtopic are:\n" ++
    "        " ++ String.intercalate ", " st.tags ++ "\n\n" ++
    "        The associated feedback for the subtopic is:\n" ++
    "        " ++ (if st.feedback.isEmpty then "" else String.intercalate ", " st.feedback) ++
    "\n\n" ++
    "        Please generate a **brief, human-readable name** for this subtopic.\n" ++
    "        - Keep it 2–5 words.\n" ++
    "        - Make it clear and intuitive.\n" ++
    "        - Avoid generic terms.\n" ++
    "        - Use title case.\n\n" ++
    "        Only return the name, without explanation.\n        "
  py_strip prompt

/-- `Subtopic.summary_prompt`: the stripped prompt requesting a 3–5 sentence
objective summary, with the `label: count` sentiment distribution. -/
def Subtopic.summary_prompt (st : Subtopic) : String :=
  let smt := st.sentiment.map (fun p => p.1 ++ ": " ++ toString p.2)
  let prompt_st :=
    "\n        You are analyzing user feedback data.\n\n" ++
    "        The following keywords represent a cluster of related feedback:\n" ++
    "        " ++ String.intercalate ", " st.tags ++ "\n\n" ++
    "        Here are example feedback statements from this cluster:\n" ++
    "        " ++ String.intercalate ", " st.feedback ++ "\n\n" ++
    "        Sentiment distribution for this cluster:\n" ++
    "        " ++ (if st.sentiment.isEmpty then "" else String.intercalate ", " smt) ++
    "\n\n" ++
    "        Write a short, cohesive paragraph summarizing the main topic or\n" ++
    "        theme of these keywords, feedback statements, and sentiment describe.\n" ++
    "        The summary should:\n" ++
    "            - Be factual and objective\n" ++
    "            - Do not start with \"Here's a summary of the cluster\" or similar\n" ++
    "            - Capture the key issue or focus of discussion across feedback\n" ++
    "            statements\n" ++
    "            - Avoid repetition or quoting text directly\n" ++
    "            - Be roughly 3–5 sentences in length\n" ++
    "            - Use plain and neutral language\n        "
  py_strip prompt_st

/-- `Topic.lookup_sub_topic`: collect the string data of the member
subtopics that exist in the subtopic dictionary, in membership order. -/
def Topic.lookup_sub_topic (t : Topic) (sub_topics : List (Int × Subtopic)) : Topic :=
  let topic_subs := t.related_sub_topics.filterMap
    (fun st_id => (sub_topics.find? (fun p => p.1 = st_id)).map (fun p => p.2))
  { t with subtopic_data := topic_subs.map Subtopic.get_str_data }

/-- `Topic.name_prompt`: the f-string evaluates
`self.name.replace("_", " ")`, which raises `AttributeError` when the topic
name is Python `None` (the sentinel produced by a hierarchy-resolution
miss); otherwise the stripped prompt is returned. -/
def Topic.name_prompt (t : Topic) : Except String String :=
  match t.name with
  | none => .error "AttributeError: 'NoneType' object has no attribute 'replace'"
  | some nm =>
      let subtopic_info_str := String.intercalate "\n\n" t.subtopic_data
      let prompt :=
        "\n        You are generating a clear, human-readable name for a topic based on\n" ++
        "        grouped subtopics. A topic is defined as the overarching theme or main\n" ++
        "        idea, relative to the subtopic which is a smaller, more specific topic.\n\n" ++
        "        The current topic identifier is:\n" ++
        "        \"" ++ nm.replace "_" " " ++ "\"\n\n" ++
        "        Below are descriptions of the subtopics that belong to this topic.\n" ++
        "        Each includes details like its id, name, tags, feedback,\n" ++
        "        and sentiment distribution:\n\n" ++
        "        " ++ subtopic_info_str ++ "\n\n" ++
        "        Generate a concise and intuitive name for the overall topic that uses\n" ++
        "        the topic identifier and descriptions of the subtopic.\n\n" ++
        "        Guidelines:\n" ++
        "        - Use 2–5 words in Title Case.\n" ++
        "        - Reflect the main unifying idea or focus across the subtopics.\n" ++
        "        - Avoid jargon, underscores, or overly generic labels.\n" ++
        "        - Do not include the word “Topic” or “Subtopic” in the name.\n" ++
        "        - Return only the final name, nothing else.\n        "
      .ok (py_strip prompt)

/-- The Language Generation Engine at the `Summary.get_output` boundary:
a chat-message bundle in, generated text out, or an engine-level error. -/
abbrev GenEngine := List (String × String) → Except Unit String

/-- `_bundle_messages` from `utils/summary.py`. -/
def bundle_messages (prompt : String) : List (String × String) :=
  [("system", "You are a helpful assistant"), ("user", prompt)]

/-- `Summary.get_output`: call the engine, strip the generated text; any
engine exception is caught and replaced by the fixed sentinel string.
The `name` argument is only used for logging in the source. -/
def get_output (gen : GenEngine) (name : String) (prompt : String) : String :=
  match gen (bundle_messages prompt) with
  | .ok gen_text => py_strip gen_text
  | .error _ => "Error generating summary"

/-- `Parser._build_topic_names`: skip topics whose `read_name` is already
truthy (non-empty); otherwise gather subtopic data, build the name prompt
(which can raise on a `None` topic name) and store the generated name.
The second component is the trace of prompts sent to the engine. -/
def build_topic_names (gen : GenEngine) (subtopics : List (Int × Subtopic)) :
    List Topic → Except String (List Topic × List String)
  | [] => .ok ([], [])
  | t :: rest =>
      if t.read_name ≠ "" then
        match build_topic_names gen subtopics rest with
        | .error e => .error e
        | .ok (ts, calls) => .ok (t :: ts, calls)
      else
        let t' := t.lookup_sub_topic subtopics
        match t'.name_prompt with
        | .error e => .error e
        | .ok prompt =>
            let read_name := get_output gen (py_str t'.name) prompt
            match build_topic_names gen subtopics rest with
            | .error e => .error e
            | .ok (ts, calls) =>
                .ok ({ t' with read_name := read_name } :: ts, prompt :: calls)

/-- `Parser._build_subtopic_info`: for every subtopic, unconditionally
generate a readable name and a summary (two engine calls each) and store
them.  The second component is the trace of prompts sent to the engine. -/
def build_subtopic_info (gen : GenEngine) :
    List (Int × Subtopic) → List (Int × Subtopic) × List String
  | [] => ([], [])
  | p :: rest =>
      let st := p.2
      let np := st.name_prompt
      let sp := st.summary_prompt
      let read_name := get_output gen st.name np
      let summary_txt := get_output gen st.name sp
      let (sts, calls) := build_subtopic_info gen rest
      ((p.1, { st with read_name := some read_name, summary := some summary_txt }) :: sts,
       np :: sp :: calls)

/-- `d_map = {t.read_name: t.related_sub_topics for t in self.topics}`. -/
def build_d_map (topics : List Topic) : List (String × List Int) :=
  topics.foldl (fun d t => py_dict_insert d t.read_name t.related_sub_topics) []

/-- One iteration of `Parser.get_summary`: take the subtopic's data dict,
reverse-look-up the owning topic (defaulting to the string `"None"`),
append the `General Topic` field and move it to the front. -/
def record_for (d_map : List (String × List Int)) (st : Subtopic) :
    Except String (List (String × Val)) :=
  match st.get_data_dict with
  | .error e => .error e
  | .ok st_data =>
      let parent_topic :=
        ((d_map.find? (fun q => st.id ∈ q.2)).map (fun q => q.1)).getD "None"
      let st_data := st_data ++ [("General Topic", Val.str (some parent_topic))]
      let general := st_data.filter (fun f => f.1 = "General Topic")
      let rest := st_data.filter (fun f => f.1 ≠ "General Topic")
      .ok (general ++ rest)

/-- The record-building loop of `Parser.get_summary` over all subtopics in
dictionary (creation) order. -/
def records_loop (d_map : List (String × List Int)) :
    List (Int × Subtopic) → Except String (List (List (String × Val)))
  | [] => .ok []
  | p :: rest =>
      match record_for d_map p.2 with
      | .error e => .error e
      | .ok r =>
          match records_loop d_map rest with
          | .error e => .error e
          | .ok rs => .ok (r :: rs)

/-- `Parser.get_summary`: the full record list, one per subtopic. -/
def get_summary (topics : List Topic) (subtopics : List (Int × Subtopic)) :
    Except String (List (List (String × Val))) :=
  records_loop (build_d_map topics) subtopics

/-- The report written by `Parser.run`: `get_summary` truncated with
`head(25)`. -/
def run_report (topics : List Topic) (subtopics : List (Int × Subtopic)) :
    Except String (List (List (String × Val))) :=
  (get_summary topics subtopics).map (fun recs => recs.take 25)

/-- `Parser.run`: the staged pipeline — subtopic building, topic building,
topic naming, subtopic naming/summarization, report assembly and
truncation.  Any uncaught Python exception aborts the run. -/
def parser_run (pipe : String → String) (gen : GenEngine) (c : Cluster) :
    Except String (List (List (String × Val))) := do
  let subtopics ← build_subtopics pipe c
  let topics ← build_topics c subtopics
  let named ← build_topic_names gen subtopics topics
  let subtopics := (build_subtopic_info gen subtopics).1
  let df ← get_summary named.1 subtopics
  pure (df.take 25)

/-- Concrete merge table used to evaluate hierarchy resolution: two rows
tie on minimal span and the lower parent id (10, name "b") must win. -/
def tie_table : List MergeRow :=
  [ { topics := [0, 1], parent_id := 11, parent_name := "a" },
    { topics := [0, 2], parent_id := 10, parent_name := "b" },
    { topics := [0, 1, 2], parent_id := 12, parent_name := "c" } ]

/-- Concrete clustering-engine output containing the reserved id `-1`. -/
def tm_noise : TopicModel :=
  { topic_info := [(-1, "-1_outliers"), (0, "0_mouse_issues")]
    topic_freq := fun _ => 5
    topic_words := fun _ => ["mouse"]
    rep_docs := fun _ => ["doc1", "doc2", "doc3", "doc4", "doc5"] }

/-- Concrete cluster state holding `tm_noise`. -/
def cl_noise : Cluster :=
  { sentences := ["a"], topic_model := some tm_noise, hierarchy := some [] }

/-- Concrete subtopic used to evaluate the majority-sentiment rule. -/
def st_positive : Subtopic :=
  { name := "mouse", id := 0, count := 4, tags := ["mouse"],
    feedback := ["good"], sentiment := [("POSITIVE", 3), ("NEGATIVE", 1)] }

/-- Concrete subtopic whose generation calls succeed. -/
def stA : Subtopic :=
  { name := "alpha", id := 0, count := 1, tags := [], feedback := [],
    sentiment := [("POSITIVE", 1)] }

/-- Concrete subtopic whose summary generation call fails. -/
def stB : Subtopic :=
  { name := "beta", id := 1, count := 1, tags := [], feedback := [],
    sentiment := [("NEGATIVE", 1)] }

/-- Concrete generation engine failing exactly on `stB`'s summary prompt. -/
def genW : GenEngine := fun msgs =>
  if msgs = bundle_messages (Subtopic.summary_prompt stB) then .error ()
  else .ok "Generated text  "

/-- Concrete subtopic already carrying a name and a summary. -/
def st_done : Subtopic :=
  { name := "gamma", id := 2, count := 1, tags := [], feedback := [],
    sentiment := [("POSITIVE", 1)], read_name := some "Old Name",
    summary := some "Old summary" }

/-- Concrete generation engine that always answers `"FRESH"`. -/
def gen_fresh : GenEngine := fun _ => .ok "FRESH"

/-- Concrete topic already carrying a non-empty readable name. -/
def topicDone : Topic := { name := some "t", read_name := "Done" }

/-- Concrete subtopic contained in no merge-table row. -/
def st_lone : Subtopic :=
  { name := "delta", id := 0, count := 1, tags := [], feedback := [],
    sentiment := [("POSITIVE", 1)] }

/-! ## Helper lemmas -/

/-- Python `max(_, key=_)` folding: the fold result is either the initial
element and bounds everything, or it sits at an index of the list, strictly
exceeds the initial element and everything at earlier indices, and bounds
every element. -/
theorem py_max_fold_spec : ∀ (l : List (String × Nat)) (b r : String × Nat),
    l.foldl (fun best q => if q.2 > best.2 then q else best) b = r →
    (r = b ∧ ∀ x ∈ l, x.2 ≤ b.2) ∨
    (∃ i, ∃ hi : i < l.length, l.get ⟨i, hi⟩ = r ∧ b.2 < r.2 ∧
      (∀ j, ∀ hj : j < l.length, j < i → (l.get ⟨j, hj⟩).2 < r.2) ∧
      (∀ x ∈ l, x.2 ≤ r.2))
  | [], b, r, hr => by
      left
      simp only [List.foldl_nil] at hr
      exact ⟨hr.symm, by simp⟩
  | q :: l, b, r, hr => by
      simp only [List.foldl_cons] at hr
      by_cases hq : q.2 > b.2
      · rw [if_pos hq] at hr
        rcases py_max_fold_spec l q r hr with ⟨h1, h2⟩ | ⟨i, hi, hget, hlt, hbefore, hall⟩
        · right
          refine ⟨0, by simp, ?_, ?_, ?_, ?_⟩
          · simpa using h1.symm
          · rw [h1]; exact hq
          · intro j hj hji; omega
          · intro x hx
            rcases List.mem_cons.mp hx with rfl | hx
            · rw [h1]
            · rw [h1]; exact h2 x hx
        · right
          refine ⟨i + 1, by simpa using Nat.succ_lt_succ hi, ?_, ?_, ?_, ?_⟩
          · simpa using hget
          · exact lt_trans hq hlt
          · intro j hj hji
            match j, hj with
            | 0, _ => simpa using hlt
            | k + 1, hj =>
                have hk : k < l.length := by simpa using hj
                simpa using hbefore k hk (by omega)
          · intro x hx
            rcases List.mem_cons.mp hx with rfl | hx
            · exact le_of_lt hlt
            · exact hall x hx
      · rw [if_neg hq] at hr
        push_neg at hq
        rcases py_max_fold_spec l b r hr with ⟨h1, h2⟩ | ⟨i, hi, hget, hlt, hbefore, hall⟩
        · left
          refine ⟨h1, ?_⟩
          intro x hx
          rcases List.mem_cons.mp hx with rfl | hx
          · exact hq
          · exact h2 x hx
        · right
          refine ⟨i + 1, by simpa using Nat.succ_lt_succ hi, ?_, ?_, ?_, ?_⟩
          · simpa using hget
          · exact hlt
          · intro j hj hji
            match j, hj with
            | 0, _ => simpa using lt_of_le_of_lt hq hlt
            | k + 1, hj =>
                have hk : k < l.length := by simpa using hj
                simpa using hbefore k hk (by omega)
          · intro x hx
            rcases List.mem_cons.mp hx with rfl | hx
            · exact le_of_lt (lt_of_le_of_lt hq hlt)
            · exact hall x hx

/-- The head of `dropWhile p` never satisfies `p`. -/
theorem head_dropWhile_not {p : Char → Bool} :
    ∀ (l : List Char) (c : Char), (l.dropWhile p).head? = some c → p c = false
  | [], c, h => by simp [List.dropWhile] at h
  | a :: l, c, h => by
      by_cases hpa : p a
      · rw [List.dropWhile_cons_of_pos hpa] at h
        exact head_dropWhile_not l c h
      · rw [List.dropWhile_cons_of_neg hpa] at h
        simp only [List.head?_cons, Option.some.injEq] at h
        rw [← h]
        simpa using hpa

/-- Folding `Nat.min` bounds the initial value and every list element. -/
theorem foldl_min_le : ∀ (l : List Nat) (a : Nat),
    l.foldl min a ≤ a ∧ ∀ x ∈ l, l.foldl min a ≤ x
  | [], a => ⟨le_refl a, by simp⟩
  | b :: l, a => by
      have ih := foldl_min_le l (min a b)
      refine ⟨le_trans ih.1 (min_le_left a b), ?_⟩
      intro x hx
      rcases List.mem_cons.mp hx with rfl | hx
      · exact le_trans ih.1 (min_le_right a x)
      · exact ih.2 x hx

/-- Folding `Nat.min` returns the initial value or a list element. -/
theorem foldl_min_mem : ∀ (l : List Nat) (a : Nat),
    l.foldl min a = a ∨ l.foldl min a ∈ l
  | [], _ => Or.inl rfl
  | b :: l, a => by
      simp only [List.foldl_cons]
      rcases foldl_min_mem l (min a b) with h | h
      · by_cases hab : a ≤ b
        · left
          rw [h, min_def, if_pos hab]
        · right
          rw [h, min_def, if_neg hab]
          exact List.mem_cons_self b l
      · exact Or.inr (List.mem_cons_of_mem b h)

/-- A head of the merge-sorted row list belongs to the original list and has
minimal parent id. -/
theorem mergeSort_head_min (l : List MergeRow) (x : MergeRow)
    (hx : (l.mergeSort (fun a b => a.parent_id ≤ b.parent_id)).head? = some x) :
    x ∈ l ∧ ∀ y ∈ l, x.parent_id ≤ y.parent_id := by
  have hperm := List.mergeSort_perm l (fun a b => a.parent_id ≤ b.parent_id)
  have hsorted := @List.sorted_mergeSort MergeRow
      (fun a b => a.parent_id ≤ b.parent_id)
      (fun a b c hab hbc => by
        simp only [decide_eq_true_eq] at hab hbc ⊢
        omega)
      (fun a b => by
        simp only [Bool.or_eq_true, decide_eq_true_eq]
        omega)
      l
  cases hms : l.mergeSort (fun a b => a.parent_id ≤ b.parent_id) with
  | nil => rw [hms] at hx; simp at hx
  | cons hd tl =>
      rw [hms] at hx hperm hsorted
      simp only [List.head?_cons, Option.some.injEq] at hx
      refine ⟨?_, ?_⟩
      · rw [← hx]
        exact hperm.mem_iff.mp (List.mem_cons_self _ _)
      · intro y hy
        have hy' : y ∈ hd :: tl := hperm.mem_iff.mpr hy
        rcases List.mem_cons.mp hy' with rfl | hy'
        · rw [← hx]
        · rw [← hx]
          have := (List.pairwise_cons.mp hsorted).1 y hy'
          simpa using this

/-- The head of `assign_topic`'s tie-break step (sort by parent id when
more than one minimal row remains) is a minimal-parent-id element. -/
theorem pick_spec (S : List MergeRow) (hS : S ≠ []) :
    ∃ r, (if S.length > 1 then
            S.mergeSort (fun a b => a.parent_id ≤ b.parent_id)
          else S).head? = some r ∧ r ∈ S ∧ ∀ q ∈ S, r.parent_id ≤ q.parent_id := by
  by_cases h1 : S.length > 1
  · rw [if_pos h1]
    cases hms : S.mergeSort (fun a b => a.parent_id ≤ b.parent_id) with
    | nil =>
        exfalso
        have hperm := List.mergeSort_perm S (fun a b => a.parent_id ≤ b.parent_id)
        rw [hms] at hperm
        have := hperm.length_eq
        simp at this
        omega
    | cons hd tl =>
        have hh := mergeSort_head_min S hd (by rw [hms]; rfl)
        exact ⟨hd, by simp, hh.1, hh.2⟩
  · rw [if_neg h1]
    cases S with
    | nil => exact absurd rfl hS
    | cons hd tl =>
        have htl : tl = [] := by
          cases tl with
          | nil => rfl
          | cons a b =>
              exfalso
              apply h1
              simp only [List.length_cons]
              omega
        subst htl
        refine ⟨hd, rfl, List.mem_cons_self _ _, ?_⟩
        intro q hq
        rcases List.mem_cons.mp hq with rfl | hq
        · exact le_refl _
        · simp at hq

/-- Unfolding `assign_topic` when the matching-row filter is non-empty. -/
theorem assign_topic_cons (hierarchy : List MergeRow) (t_id : Int)
    (m : MergeRow) (ms : List MergeRow)
    (hF : hierarchy.filter (fun r => t_id ∈ r.topics) = m :: ms) :
    assign_topic hierarchy t_id =
      (if ((m :: ms).filter (fun r =>
          r.topics.length = (ms.map (fun r => r.topics.length)).foldl min m.topics.length)).length > 1
       then ((m :: ms).filter (fun r =>
          r.topics.length = (ms.map (fun r => r.topics.length)).foldl min m.topics.length)).mergeSort
            (fun a b => a.parent_id ≤ b.parent_id)
       else ((m :: ms).filter (fun r =>
          r.topics.length = (ms.map (fun r => r.topics.length)).foldl min m.topics.length))).head?.map
        (fun r => r.parent_name) := by
  simp only [assign_topic]
  rw [hF]

/-! ## Claims -/

/-- C9: name cleaning strips exactly the leading run of digits, hyphens and
underscores, leaving the remainder unchanged; `"03_refund_policy"` cleans
to `"refund_policy"` and `"abc123"` is unchanged. -/
theorem clean_name_spec (s : String) :
    (∃ pre suf, s.data = pre ++ suf ∧
      (clean_name s).data = suf ∧
      (∀ c ∈ pre, (c = '-' || c.isDigit || c = '_') = true) ∧
      (∀ c, suf.head? = some c → (c = '-' || c.isDigit || c = '_') = false)) ∧
    clean_name "03_refund_policy" = "refund_policy" ∧
    clean_name "abc123" = "abc123" := by
  refine ⟨⟨s.data.takeWhile (fun c => c = '-' || c.isDigit || c = '_'),
          s.data.dropWhile (fun c => c = '-' || c.isDigit || c = '_'),
          (List.takeWhile_append_dropWhile _ _).symm, rfl, ?_, ?_⟩, by decide, by decide⟩
  · intro c hc
    simpa using List.mem_takeWhile_imp hc
  · intro c hc
    exact head_dropWhile_not _ c hc

/-- C9 witness: the general decomposition evaluated at a concrete input. -/
theorem clean_name_spec_witness :
    (∃ pre suf, (String.data "03_refund_policy") = pre ++ suf ∧
      (clean_name "03_refund_policy").data = suf ∧
      (∀ c ∈ pre, (c = '-' || c.isDigit || c = '_') = true) ∧
      (∀ c, suf.head? = some c → (c = '-' || c.isDigit || c = '_') = false)) ∧
    clean_name "03_refund_policy" = "refund_policy" ∧
    clean_name "abc123" = "abc123" :=
  clean_name_spec "03_refund_policy"

/-- C10: an empty sampled feedback list yields an empty sentiment tally, on
which report-record construction raises (`max` on an empty dict); a
non-empty sentiment mapping is exactly the precondition under which
`get_data_dict` produces a record. -/
theorem empty_sentiment_precondition (pipe : String → String) (st : Subtopic) :
    get_sentimental pipe [] = [] ∧
    (st.sentiment = [] →
      st.get_data_dict = .error "ValueError: max() arg is an empty sequence") ∧
    (st.sentiment ≠ [] → ∃ rec, st.get_data_dict = .ok rec) := by
  refine ⟨rfl, ?_, ?_⟩
  · intro h
    simp [Subtopic.get_data_dict, h, py_max_by_count]
  · intro h
    cases hs : st.sentiment with
    | nil => exact absurd hs h
    | cons p rest =>
        refine ⟨[ ("Subtopic", .str st.read_name),
                  ("Sentiment", .str (some
                    ((rest.foldl (fun best q => if q.2 > best.2 then q else best) p).1))),
                  ("Number of Responses", .nat st.count),
                  ("Summary", .str st.summary) ], ?_⟩
        simp [Subtopic.get_data_dict, hs, py_max_by_count]

/-- C10 witness: both branches of the precondition at concrete subtopics. -/
theorem empty_sentiment_precondition_witness :
    (({ name := "a", id := 0, count := 0, tags := [] } : Subtopic).sentiment = [] →
      ({ name := "a", id := 0, count := 0, tags := [] } : Subtopic).get_data_dict =
        .error "ValueError: max() arg is an empty sequence") ∧
    ({ name := "a", id := 0, count := 0, tags := [] } : Subtopic).get_data_dict =
      .error "ValueError: max() arg is an empty sequence" :=
  ⟨(empty_sentiment_precondition (fun _ => "NEUTRAL")
      { name := "a", id := 0, count := 0, tags := [] }).2.1,
   (empty_sentiment_precondition (fun _ => "NEUTRAL")
      { name := "a", id := 0, count := 0, tags := [] }).2.1 rfl⟩

/-- C6: for a subtopic with a non-empty sentiment mapping, the report's
Sentiment field is a label with the highest count, ties broken in favour of
the first-inserted label (every strictly earlier entry has a strictly
smaller count); and the tally POSITIVE 3, NEGATIVE 1 resolves to POSITIVE. -/
theorem majority_sentiment_spec (st : Subtopic) (h : st.sentiment ≠ []) :
    (∃ lbl cnt i, ∃ hi : i < st.sentiment.length,
      st.get_data_dict = .ok
        [ ("Subtopic", .str st.read_name),
          ("Sentiment", .str (some lbl)),
          ("Number of Responses", .nat st.count),
          ("Summary", .str st.summary) ] ∧
      st.sentiment.get ⟨i, hi⟩ = (lbl, cnt) ∧
      (∀ p ∈ st.sentiment, p.2 ≤ cnt) ∧
      (∀ j, ∀ hj : j < st.sentiment.length, j < i →
        (st.sentiment.get ⟨j, hj⟩).2 < cnt)) ∧
    py_max_by_count [("POSITIVE", 3), ("NEGATIVE", 1)] = some "POSITIVE" := by
  refine ⟨?_, by decide⟩
  cases hs : st.sentiment with
  | nil => exact absurd hs h
  | cons p rest =>
      have hdd : st.get_data_dict = .ok
          [ ("Subtopic", .str st.read_name),
            ("Sentiment", .str (some
              ((rest.foldl (fun best q => if q.2 > best.2 then q else best) p).1))),
            ("Number of Responses", .nat st.count),
            ("Summary", .str st.summary) ] := by
        simp [Subtopic.get_data_dict, hs, py_max_by_count]
      set r := rest.foldl (fun best q => if q.2 > best.2 then q else best) p with hr
      rcases py_max_fold_spec rest p r hr.symm with
        ⟨h1, h2⟩ | ⟨i, hi, hget, hlt, hbefore, hall⟩
      · refine ⟨r.1, r.2, 0, by simp, hdd, ?_, ?_, ?_⟩
        · simp [h1]
        · intro q hq
          rcases List.mem_cons.mp hq with rfl | hq
          · rw [h1]
          · rw [h1]; exact h2 q hq
        · intro j hj hji; omega
      · refine ⟨r.1, r.2, i + 1, by simpa using Nat.succ_lt_succ hi, hdd, ?_, ?_, ?_⟩
        · simpa using hget
        · intro q hq
          rcases List.mem_cons.mp hq with rfl | hq
          · exact le_of_lt hlt
          · exact hall q hq
        · intro j hj hji
          match j, hj with
          | 0, _ => simpa using hlt
          | k + 1, hj =>
              have hk : k < rest.length := by simpa using hj
              simpa using hbefore k hk (by omega)

/-- C6 witness: the rule applied to a concrete subtopic whose tally is
POSITIVE 3, NEGATIVE 1. -/
theorem majority_sentiment_spec_witness :
    st_positive.sentiment ≠ [] ∧
    ((∃ lbl cnt i, ∃ hi : i < st_positive.sentiment.length,
      st_positive.get_data_dict = .ok
        [ ("Subtopic", .str st_positive.read_name),
          ("Sentiment", .str (some lbl)),
          ("Number of Responses", .nat st_positive.count),
          ("Summary", .str st_positive.summary) ] ∧
      st_positive.sentiment.get ⟨i, hi⟩ = (lbl, cnt) ∧
      (∀ p ∈ st_positive.sentiment, p.2 ≤ cnt) ∧
      (∀ j, ∀ hj : j < st_positive.sentiment.length, j < i →
        (st_positive.sentiment.get ⟨j, hj⟩).2 < cnt)) ∧
    py_max_by_count [("POSITIVE", 3), ("NEGATIVE", 1)] = some "POSITIVE") :=
  ⟨by decide, majority_sentiment_spec st_positive (by decide)⟩

/-- C1: hierarchy resolution returns `none` exactly when no merge row
contains the leaf id; otherwise it returns the parent name of a containing
row of minimal span whose parent id is lowest among the minimal-span
containing rows; repeated calls on identical inputs agree. -/
theorem assign_topic_spec (hierarchy : List MergeRow) (t_id : Int) :
    assign_topic hierarchy t_id = assign_topic hierarchy t_id ∧
    ((∀ r ∈ hierarchy, t_id ∉ r.topics) → assign_topic hierarchy t_id = none) ∧
    (∀ r0 ∈ hierarchy, t_id ∈ r0.topics →
      ∃ r, r ∈ hierarchy ∧ t_id ∈ r.topics ∧
        (∀ q ∈ hierarchy, t_id ∈ q.topics → r.topics.length ≤ q.topics.length) ∧
        (∀ q ∈ hierarchy, t_id ∈ q.topics → q.topics.length = r.topics.length →
          r.parent_id ≤ q.parent_id) ∧
        assign_topic hierarchy t_id = some r.parent_name) := by
  refine ⟨rfl, ?_, ?_⟩
  · intro hnone
    have hf : hierarchy.filter (fun r => t_id ∈ r.topics) = [] := by
      rw [List.filter_eq_nil_iff]
      intro r hr
      simpa using hnone r hr
    simp [assign_topic, hf]
  · intro r0 hr0 ht
    have hmem : r0 ∈ hierarchy.filter (fun r => t_id ∈ r.topics) :=
      List.mem_filter.mpr ⟨hr0, by simpa using ht⟩
    cases hF : hierarchy.filter (fun r => t_id ∈ r.topics) with
    | nil => rw [hF] at hmem; simp at hmem
    | cons m ms =>
        have hFmem : ∀ q, q ∈ m :: ms ↔
            q ∈ hierarchy ∧ t_id ∈ q.topics := by
          intro q
          rw [← hF]
          constructor
          · intro hq
            have := List.mem_filter.mp hq
            exact ⟨this.1, by simpa using this.2⟩
          · intro hq
            exact List.mem_filter.mpr ⟨hq.1, by simpa using hq.2⟩
        have hminle : ∀ q ∈ m :: ms,
            (ms.map (fun r => r.topics.length)).foldl min m.topics.length ≤
              q.topics.length := by
          intro q hq
          rcases List.mem_cons.mp hq with rfl | hq
          · exact (foldl_min_le _ _).1
          · exact (foldl_min_le _ _).2 _ (List.mem_map_of_mem _ hq)
        have hminmem : ∃ w ∈ m :: ms, w.topics.length =
            (ms.map (fun r => r.topics.length)).foldl min m.topics.length := by
          rcases foldl_min_mem (ms.map (fun r => r.topics.length)) m.topics.length
            with h | h
          · exact ⟨m, List.mem_cons_self _ _, h.symm⟩
          · rcases List.mem_map.mp h with ⟨w, hw, hwl⟩
            exact ⟨w, List.mem_cons_of_mem _ hw, hwl⟩
        rcases hminmem with ⟨w, hwF, hwlen⟩
        have hS : (m :: ms).filter (fun r => r.topics.length =
            (ms.map (fun r => r.topics.length)).foldl min m.topics.length) ≠ [] := by
          intro hemp
          have : w ∈ (m :: ms).filter (fun r => r.topics.length =
              (ms.map (fun r => r.topics.length)).foldl min m.topics.length) :=
            List.mem_filter.mpr ⟨hwF, by simpa using hwlen⟩
          rw [hemp] at this
          simp at this
        rcases pick_spec _ hS with ⟨r, hhead, hrS, hrmin⟩
        have hrS' := List.mem_filter.mp hrS
        have hrF := (hFmem r).mp hrS'.1
        have hrlen : r.topics.length =
            (ms.map (fun r => r.topics.length)).foldl min m.topics.length := by
          simpa using hrS'.2
        refine ⟨r, hrF.1, hrF.2, ?_, ?_, ?_⟩
        · intro q hq hqt
          rw [hrlen]
          exact hminle q ((hFmem q).mpr ⟨hq, hqt⟩)
        · intro q hq hqt hqlen
          apply hrmin
          apply List.mem_filter.mpr
          refine ⟨(hFmem q).mpr ⟨hq, hqt⟩, ?_⟩
          simp only [decide_eq_true_eq]
          rw [hqlen, hrlen]
        · rw [assign_topic_cons hierarchy t_id m ms hF, hhead]
          rfl

/-- C1 witness: a concrete merge table with a span tie resolved by the
lowest parent id. -/
theorem assign_topic_spec_witness :
    ((∀ r ∈ ([] : List MergeRow), (0 : Int) ∉ r.topics) →
      assign_topic [] 0 = none) ∧
    (∀ r0 ∈ tie_table, (0 : Int) ∈ r0.topics →
      ∃ r, r ∈ tie_table ∧ (0 : Int) ∈ r.topics ∧
        (∀ q ∈ tie_table, (0 : Int) ∈ q.topics →
          r.topics.length ≤ q.topics.length) ∧
        (∀ q ∈ tie_table, (0 : Int) ∈ q.topics →
          q.topics.length = r.topics.length → r.parent_id ≤ q.parent_id) ∧
        assign_topic tie_table 0 = some r.parent_name) ∧
    assign_topic tie_table 0 = some "b" :=
  by
  refine ⟨(assign_topic_spec [] 0).2.1, (assign_topic_spec tie_table 0).2.2, ?_⟩
  obtain ⟨r, hmem, hcont, hmin, htie, heq⟩ :=
    (assign_topic_spec tie_table 0).2.2
      { topics := [0, 1], parent_id := 11, parent_name := "a" } (by decide) (by decide)
  have hcases :
      r = ({ topics := [0, 1], parent_id := 11, parent_name := "a" } : MergeRow) ∨
      r = { topics := [0, 2], parent_id := 10, parent_name := "b" } ∨
      r = { topics := [0, 1, 2], parent_id := 12, parent_name := "c" } := by
    simpa [tie_table] using hmem
  rcases hcases with rfl | rfl | rfl
  · have h10 := htie { topics := [0, 2], parent_id := 10, parent_name := "b" }
      (by decide) (by decide) (by decide)
    exact absurd h10 (by decide)
  · exact heq
  · have h32 := hmin { topics := [0, 1], parent_id := 11, parent_name := "a" }
      (by decide) (by decide)
    exact absurd h32 (by decide)

/-- Subtopics built by the loop carry the id of some packaged record. -/
theorem subtopics_loop_ids (pipe : String → String) :
    ∀ (data : List (Int × ClusterData)) (sts : List (Int × Subtopic)),
      subtopics_loop pipe data = .ok sts →
      ∀ p ∈ sts, ∃ e ∈ data, p.1 = e.1 ∧ p.2.id = e.2.id
  | [], sts, h, p, hp => by
      simp only [subtopics_loop] at h
      simp only [Except.ok.injEq] at h
      rw [← h] at hp
      simp at hp
  | d :: rest, sts, h, p, hp => by
      simp only [subtopics_loop] at h
      split at h
      · simp at h
      · split at h
        · simp at h
        · rename_i nm hnm sts0 hrec
          simp only [Except.ok.injEq] at h
          rw [← h] at hp
          rcases List.mem_cons.mp hp with rfl | hp'
          · exact ⟨d, List.mem_cons_self _ _, rfl, rfl⟩
          · rcases subtopics_loop_ids pipe rest sts0 hrec p hp' with ⟨e, he, h1, h2⟩
            exact ⟨e, List.mem_cons_of_mem _ he, h1, h2⟩

/-- C8: the packaged per-cluster data contains no entry for cluster id `-1`,
and consequently the subtopic builder never constructs a subtopic carrying
the id `-1`. -/
theorem no_subtopic_for_noise (c : Cluster) (pipe : String → String) :
    (∀ data, package_model_data c = .ok data →
      ∀ e ∈ data, e.1 ≠ -1 ∧ e.2.id ≠ -1) ∧
    (∀ sts, build_subtopics pipe c = .ok sts →
      ∀ p ∈ sts, p.1 ≠ -1 ∧ p.2.id ≠ -1) := by
  have hpack : ∀ data, package_model_data c = .ok data →
      ∀ e ∈ data, e.1 ≠ -1 ∧ e.2.id ≠ -1 := by
    intro data hdata e he
    cases htm : c.topic_model with
    | none => simp [package_model_data, htm] at hdata
    | some tm =>
        simp only [package_model_data, htm, Except.ok.injEq] at hdata
        rw [← hdata] at he
        rcases List.mem_filterMap.mp he with ⟨a, _, hfa⟩
        by_cases ha : a = -1
        · rw [if_pos ha] at hfa
          simp at hfa
        · rw [if_neg ha] at hfa
          simp only [Option.some.injEq] at hfa
          rw [← hfa]
          exact ⟨ha, ha⟩
  refine ⟨hpack, ?_⟩
  intro sts hsts p hp
  rw [build_subtopics] at hsts
  split at hsts
  · simp at hsts
  · rename_i data hdata
    rcases subtopics_loop_ids pipe data sts hsts p hp with ⟨e, he, h1, h2⟩
    rcases hpack data hdata e he with ⟨hne1, hne2⟩
    rw [h1, h2]
    exact ⟨hne1, hne2⟩

/-- C8 witness: the concrete engine output with ids `-1` and `0` packages
only id `0`, and the built subtopic list carries no id `-1`. -/
theorem no_subtopic_for_noise_witness :
    build_subtopics (fun _ => "POSITIVE") cl_noise = .ok
      [(0, { name := "mouse_issues", id := 0, count := 5, tags := ["mouse"],
             feedback := ["doc1", "doc2", "doc3", "doc4"],
             sentiment := [("POSITIVE", 4)] })] ∧
    (∀ p ∈ [((0 : Int),
        ({ name := "mouse_issues", id := 0, count := 5, tags := ["mouse"],
           feedback := ["doc1", "doc2", "doc3", "doc4"],
           sentiment := [("POSITIVE", 4)] } : Subtopic))],
      p.1 ≠ -1 ∧ p.2.id ≠ -1) :=
  ⟨by decide,
   (no_subtopic_for_noise cl_noise (fun _ => "POSITIVE")).2
     [(0, { name := "mouse_issues", id := 0, count := 5, tags := ["mouse"],
            feedback := ["doc1", "doc2", "doc3", "doc4"],
            sentiment := [("POSITIVE", 4)] })] (by decide)⟩

/-- The subtopic enrichment loop processes every item independently:
its output is the per-item update map. -/
theorem build_subtopic_info_fst (gen : GenEngine) :
    ∀ sts : List (Int × Subtopic),
      (build_subtopic_info gen sts).1 = sts.map (fun p => (p.1,
        { p.2 with
            read_name := some (get_output gen p.2.name (Subtopic.name_prompt p.2)),
            summary := some (get_output gen p.2.name (Subtopic.summary_prompt p.2)) }))
  | [] => rfl
  | p :: rest => by
      have ih := build_subtopic_info_fst gen rest
      rcases hrec : build_subtopic_info gen rest with ⟨sts0, calls0⟩
      rw [hrec] at ih
      simp only [build_subtopic_info, hrec, List.map_cons]
      simpa using ih

/-- The subtopic enrichment loop issues exactly two engine calls per item. -/
theorem build_subtopic_info_calls (gen : GenEngine) :
    ∀ sts : List (Int × Subtopic),
      (build_subtopic_info gen sts).2.length = 2 * sts.length
  | [] => rfl
  | p :: rest => by
      have ih := build_subtopic_info_calls gen rest
      rcases hrec : build_subtopic_info gen rest with ⟨sts0, calls0⟩
      rw [hrec] at ih
      simp only [build_subtopic_info, hrec, List.length_cons, List.length_map]
      simp at ih
      simp [ih]
      ring

/-- C3: a generation failure for one item yields the fixed sentinel for
that item only; the pass never aborts (each item is mapped independently,
so every other item receives the engine's stripped generated text). -/
theorem generation_failure_isolation (gen : GenEngine) (sts : List (Int × Subtopic)) :
    ((build_subtopic_info gen sts).1 = sts.map (fun p => (p.1,
      { p.2 with
          read_name := some (get_output gen p.2.name (Subtopic.name_prompt p.2)),
          summary := some (get_output gen p.2.name (Subtopic.summary_prompt p.2)) })) ∧
     (build_subtopic_info gen sts).1.length = sts.length) ∧
    (∀ st : Subtopic, gen (bundle_messages (Subtopic.summary_prompt st)) = .error () →
      get_output gen st.name (Subtopic.summary_prompt st) = "Error generating summary") ∧
    (∀ st : Subtopic, ∀ t, gen (bundle_messages (Subtopic.summary_prompt st)) = .ok t →
      get_output gen st.name (Subtopic.summary_prompt st) = py_strip t) := by
  refine ⟨⟨build_subtopic_info_fst gen sts, ?_⟩, ?_, ?_⟩
  · rw [build_subtopic_info_fst gen sts]
    exact List.length_map _ _
  · intro st h
    rw [get_output, h]
  · intro st t h
    rw [get_output, h]

set_option maxRecDepth 100000 in
/-- C3 witness: with an engine failing exactly on `stB`'s summary prompt,
`stB` gets the sentinel, `stA` keeps its stripped generated text, and both
items are present in the output. -/
theorem generation_failure_isolation_witness :
    genW (bundle_messages (Subtopic.summary_prompt stB)) = .error () ∧
    genW (bundle_messages (Subtopic.summary_prompt stA)) = .ok "Generated text  " ∧
    get_output genW stB.name (Subtopic.summary_prompt stB) = "Error generating summary" ∧
    get_output genW stA.name (Subtopic.summary_prompt stA) = py_strip "Generated text  " ∧
    (build_subtopic_info genW [(0, stA), (1, stB)]).1.length = 2 := by
  have h := generation_failure_isolation genW [(0, stA), (1, stB)]
  have herrB : genW (bundle_messages (Subtopic.summary_prompt stB)) = .error () := by
    decide
  have hokA : genW (bundle_messages (Subtopic.summary_prompt stA)) =
      .ok "Generated text  " := by
    decide
  exact ⟨herrB, hokA, h.2.1 stB herrB, h.2.2 stA _ hokA, h.1.2⟩

/-- The topic-naming pass skips every already-named topic: unchanged
list, empty call trace. -/
theorem build_topic_names_skip (gen : GenEngine) (subtopics : List (Int × Subtopic)) :
    ∀ topics : List Topic, (∀ t ∈ topics, t.read_name ≠ "") →
      build_topic_names gen subtopics topics = .ok (topics, [])
  | [], _ => rfl
  | t :: rest, h => by
      have hrec := build_topic_names_skip gen subtopics rest
        (fun q hq => h q (List.mem_cons_of_mem _ hq))
      simp only [build_topic_names]
      rw [if_pos (h t (List.mem_cons_self _ _)), hrec]

/-- C2 counterexample: a subtopic already carrying a non-empty `read_name`
and `summary` is re-processed anyway — the pass issues two further engine
calls for it and overwrites both fields. -/
theorem naming_idempotency_counterexample :
    st_done.read_name = some "Old Name" ∧
    st_done.summary = some "Old summary" ∧
    (build_subtopic_info gen_fresh [(2, st_done)]).2.length = 2 ∧
    (build_subtopic_info gen_fresh [(2, st_done)]).1 =
      [(2, { st_done with read_name := some "FRESH", summary := some "FRESH" })] ∧
    some "FRESH" ≠ some "Old summary" := by decide

/-- C2 (amended): a Topic whose `read_name` is already non-empty is skipped
by the naming pass — zero engine calls, entity unchanged — but Subtopics
are re-processed unconditionally, at exactly two engine calls each. -/
theorem naming_idempotency_amended (gen : GenEngine) (sts : List (Int × Subtopic))
    (topics : List Topic) (h : ∀ t ∈ topics, t.read_name ≠ "") :
    build_topic_names gen sts topics = .ok (topics, []) ∧
    (build_subtopic_info gen sts).2.length = 2 * sts.length :=
  ⟨build_topic_names_skip gen sts topics h, build_subtopic_info_calls gen sts⟩

/-- C2 witness: the amended statement at a concrete already-named topic. -/
theorem naming_idempotency_amended_witness :
    (∀ t ∈ [topicDone], t.read_name ≠ "") ∧
    (build_topic_names gen_fresh [] [topicDone] = .ok ([topicDone], []) ∧
     (build_subtopic_info gen_fresh []).2.length = 2 * ([] : List (Int × Subtopic)).length) :=
  ⟨by decide, naming_idempotency_amended gen_fresh [] [topicDone] (by decide)⟩

/-- With a non-empty sentiment mapping, one report record is produced and
its field names come out in the fixed order. -/
theorem record_for_ok (d_map : List (String × List Int)) (st : Subtopic)
    (h : st.sentiment ≠ []) :
    ∃ r, record_for d_map st = .ok r ∧
      r.map (fun f => f.1) =
        ["General Topic", "Subtopic", "Sentiment", "Number of Responses", "Summary"] := by
  cases hs : st.sentiment with
  | nil => exact absurd hs h
  | cons p rest =>
      have hdd : st.get_data_dict = .ok
          [ ("Subtopic", .str st.read_name),
            ("Sentiment", .str (some
              ((rest.foldl (fun best q => if q.2 > best.2 then q else best) p).1))),
            ("Number of Responses", .nat st.count),
            ("Summary", .str st.summary) ] := by
        simp [Subtopic.get_data_dict, hs, py_max_by_count]
      refine ⟨("General Topic", Val.str (some
          (((d_map.find? (fun q => st.id ∈ q.2)).map (fun q => q.1)).getD "None"))) ::
        [ ("Subtopic", .str st.read_name),
          ("Sentiment", .str (some
            ((rest.foldl (fun best q => if q.2 > best.2 then q else best) p).1))),
          ("Number of Responses", .nat st.count),
          ("Summary", .str st.summary) ], ?_, ?_⟩
      · simp [record_for, hdd]
      · simp

/-- The record loop of `get_summary` succeeds on subtopics with non-empty
sentiment, produces one record per subtopic in order, and every record has
the fixed field layout. -/
theorem records_loop_ok (d_map : List (String × List Int)) :
    ∀ sts : List (Int × Subtopic), (∀ p ∈ sts, p.2.sentiment ≠ []) →
      ∃ recs, records_loop d_map sts = .ok recs ∧ recs.length = sts.length ∧
        (∀ i, ∀ hi : i < sts.length, ∀ hj : i < recs.length,
          record_for d_map (sts.get ⟨i, hi⟩).2 = .ok (recs.get ⟨i, hj⟩)) ∧
        (∀ r ∈ recs, r.map (fun f => f.1) =
          ["General Topic", "Subtopic", "Sentiment", "Number of Responses", "Summary"])
  | [], _ => ⟨[], rfl, rfl, by intro i hi; simp at hi, by simp⟩
  | p :: rest, h => by
      rcases record_for_ok d_map p.2 (h p (List.mem_cons_self _ _)) with ⟨r, hr, hrf⟩
      rcases records_loop_ok d_map rest
          (fun q hq => h q (List.mem_cons_of_mem _ hq)) with ⟨recs, hrecs, hlen, hidx, hfields⟩
      refine ⟨r :: recs, ?_, by simp [hlen], ?_, ?_⟩
      · rw [records_loop, hr, hrecs]
      · intro i hi hj
        match i, hi, hj with
        | 0, _, _ => simpa using hr
        | k + 1, hi, hj =>
            have hk : k < rest.length := by simpa using hi
            have hk' : k < recs.length := by simpa using hj
            simpa using hidx k hk hk'
      · intro q hq
        rcases List.mem_cons.mp hq with rfl | hq
        · exact hrf
        · exact hfields q hq

/-- C7: with n subtopics all bearing a sentiment tally, the report is the
first min(n, 25) records in subtopic-creation order (each record produced
from the subtopic at the same index — no re-sorting), and every record
carries the fields General Topic, Subtopic, Sentiment, Number of Responses,
Summary in that order. -/
theorem report_truncation_spec (topics : List Topic) (sts : List (Int × Subtopic))
    (h : ∀ p ∈ sts, p.2.sentiment ≠ []) :
    ∃ recs, get_summary topics sts = .ok recs ∧ recs.length = sts.length ∧
      run_report topics sts = .ok (recs.take 25) ∧
      (recs.take 25).length = min sts.length 25 ∧
      (∀ i, ∀ hi : i < sts.length, ∀ hj : i < recs.length,
        record_for (build_d_map topics) (sts.get ⟨i, hi⟩).2 = .ok (recs.get ⟨i, hj⟩)) ∧
      (∀ r ∈ recs, r.map (fun f => f.1) =
        ["General Topic", "Subtopic", "Sentiment", "Number of Responses", "Summary"]) := by
  rcases records_loop_ok (build_d_map topics) sts h with ⟨recs, hrecs, hlen, hidx, hfields⟩
  refine ⟨recs, hrecs, hlen, ?_, ?_, hidx, hfields⟩
  · rw [run_report, get_summary] at *
    rw [hrecs]
    rfl
  · rw [List.length_take, hlen]
    omega

/-- C7 witness: one subtopic yields a one-record report with the fixed
field order. -/
theorem report_truncation_spec_witness :
    (∀ p ∈ [((0 : Int), st_positive)], p.2.sentiment ≠ []) ∧
    (∃ recs, get_summary [] [(0, st_positive)] = .ok recs ∧
      recs.length = [((0 : Int), st_positive)].length ∧
      run_report [] [(0, st_positive)] = .ok (recs.take 25) ∧
      (recs.take 25).length = min [((0 : Int), st_positive)].length 25 ∧
      (∀ i, ∀ hi : i < [((0 : Int), st_positive)].length, ∀ hj : i < recs.length,
        record_for (build_d_map []) ([((0 : Int), st_positive)].get ⟨i, hi⟩).2 =
          .ok (recs.get ⟨i, hj⟩)) ∧
      (∀ r ∈ recs, r.map (fun f => f.1) =
        ["General Topic", "Subtopic", "Sentiment", "Number of Responses", "Summary"])) :=
  ⟨by decide, report_truncation_spec [] [(0, st_positive)] (by decide)⟩

/-- C4 (code bug): with an empty corpus the clustering step is skipped
(`topic_model` is `None`), but the pipeline then crashes: `Parser.run`
reaches `package_model_data`, which dereferences the absent topic model and
raises `AttributeError` instead of producing an empty report. -/
theorem empty_corpus_crash (engine : List String → TopicModel)
    (hier_engine : List String → List MergeRow) (pipe : String → String)
    (gen : GenEngine) :
    build_clusters engine [] = none ∧
    (mk_cluster engine hier_engine []).topic_model = none ∧
    package_model_data (mk_cluster engine hier_engine []) =
      .error "AttributeError: 'NoneType' object has no attribute 'get_topic_info'" ∧
    parser_run pipe gen (mk_cluster engine hier_engine []) =
      .error "AttributeError: 'NoneType' object has no attribute 'get_topic_info'" :=
  ⟨rfl, rfl, rfl, rfl⟩

/-- C5 (code bug): a hierarchy-resolution miss is absorbed by topic
building — the subtopic lands in exactly one topic, the sentinel topic with
name `None` — but the run still fails: the topic-naming pass evaluates
`name_prompt` on the sentinel topic and raises `AttributeError` on
`None.replace`. -/
theorem hierarchy_miss_crash :
    Cluster.assign_topic cl_noise 0 = .ok none ∧
    build_topics cl_noise [(0, st_lone)] =
      .ok [{ name := none, related_sub_topics := [0] }] ∧
    (List.filter (fun t => (0 : Int) ∈ t.related_sub_topics)
      [({ name := none, related_sub_topics := [0] } : Topic)]).length = 1 ∧
    Topic.name_prompt { name := none, related_sub_topics := [0] } =
      .error "AttributeError: 'NoneType' object has no attribute 'replace'" ∧
    build_topic_names gen_fresh [(0, st_lone)]
      [{ name := none, related_sub_topics := [0] }] =
      .error "AttributeError: 'NoneType' object has no attribute 'replace'" := by
  decide

end FSA
